import Mathlib

/-!
Verification of the snakecite repository (src/snakecite/cite.py and
src/snakecite/__main__.py) against its natural-language specification.

The Python code is shallowly embedded: network effects are passed in as
explicit environments (one HTTP response per attempt, one fetch result per
probed URL), Python exceptions become an explicit `PyExc` type, and the
CPython library behaviour the code relies on (`urllib.parse.urlparse`,
`re` pattern matching, `str.strip`) is translated faithfully for the
ASCII inputs this program manipulates.
-/

/-- Python exceptions that the embedded code can raise.  `urllib.request`'s
`HTTPError` carries the status code; `plainException` stands for a bare
`Exception(...)`; the remaining constructors are the built-in exception
classes raised by the translated library calls. -/
inductive PyExc where
  | httpError (code : Nat)
  | valueError
  | typeError
  | attributeError
  | plainException
deriving DecidableEq, Repr

/-- One HTTP response as seen by `_query_github_api`: either `urlopen`
succeeds (2xx, decoded JSON body abstracted as a string) or it raises
`HTTPError` with a status code and response headers (name/value pairs of
strings, as in an `email.message.Message`). -/
inductive ApiResponse where
  | ok (body : String)
  | httpError (code : Nat) (headers : List (String × String))
deriving DecidableEq, Repr

/-- Terminal outcome of a `_query_github_api` call.  `absent` is never
produced by the code in cite.py lines 71-90; it is included so that the
spec's "return absent" contract is statable and refutable. -/
inductive QueryOutcome where
  | success (body : String)
  | absent
  | raisedHTTP (code : Nat)
  | raisedTypeError
  | raisedExhausted
deriving DecidableEq, Repr

/-- Result of running `_query_github_api`: the outcome, the number of HTTP
attempts actually made, and the durations (in seconds) passed to `sleep`. -/
structure QueryRun where
  outcome : QueryOutcome
  attempts : Nat
  sleeps : List Nat
deriving DecidableEq, Repr

/-- Python `'retry_after' in e.headers`: header-name membership in an
`email.message.Message` is case-insensitive. -/
def hasRetryAfter (headers : List (String × String)) : Bool :=
  headers.any (fun p => p.1.data.map Char.toLower == "retry_after".data)

/-- Python `e.headers['X-RateLimit-Remaining'] == 0` (cite.py line 82).
`Message.__getitem__` yields `None` for a missing header and a `str`
otherwise; in Python 3 both `None == 0` and `"0" == 0` are `False`, so
this condition is `False` for every header list. -/
def rateLimitRemainingEqZero (_headers : List (String × String)) : Bool :=
  false

/-- The retry loop of `_query_github_api` (cite.py lines 71-90).
`env nth` is the response received by attempt number `nth` (0-based);
`fuel` is the number of loop iterations left out of `max_retries`.

Branch-by-branch translation:
* 2xx: return the decoded body.
* 403/429 with a `retry_after` header: the first statement executed is
  `max_wait < e.headers['retry_after']`, an `int < str` comparison, which
  raises `TypeError` in Python 3 (the `Exception(...)` on lines 80/85 is
  constructed but never raised, and the following `sleep` line would call
  `e.headers(...)`, also a `TypeError`).
* 403/429 where `e.headers['X-RateLimit-Remaining'] == 0`: dead branch,
  see `rateLimitRemainingEqZero`; kept for fidelity.
* other 403/429: `sleep(60 * (nth_try + 1))` and iterate.
* any other status: `raise e` immediately.
* loop exhausted: `raise Exception("Unable to retrieve info ...")`. -/
def queryLoop (env : Nat → ApiResponse) (maxWait : Nat) :
    Nat → Nat → List Nat → QueryRun
  | nth, 0, sleeps => ⟨.raisedExhausted, nth, sleeps⟩
  | nth, fuel + 1, sleeps =>
    match env nth with
    | .ok body => ⟨.success body, nth + 1, sleeps⟩
    | .httpError code headers =>
      if code = 403 ∨ code = 429 then
        if hasRetryAfter headers then
          ⟨.raisedTypeError, nth + 1, sleeps⟩
        else if rateLimitRemainingEqZero headers then
          queryLoop env maxWait (nth + 1) fuel sleeps
        else
          queryLoop env maxWait (nth + 1) fuel (sleeps ++ [60 * (nth + 1)])
      else ⟨.raisedHTTP code, nth + 1, sleeps⟩

/-- `_query_github_api(api_request, max_retries, max_wait)` (cite.py
lines 43-90), with the request abstracted into the response environment
`env`.  The source defaults are `max_retries=3`, `max_wait=60`. -/
def queryGithubApi (env : Nat → ApiResponse) (maxRetries : Nat) (maxWait : Nat) :
    QueryRun :=
  queryLoop env maxWait 0 maxRetries []

/-! ### Character classes and small regex building blocks

`\w` is modelled as an ASCII word character (letter, digit, underscore);
every string this program builds or matches is ASCII. -/

/-- Python regex `\w` (ASCII): letter, digit or underscore. -/
def isWordChar (c : Char) : Bool :=
  c.isAlpha || c.isDigit || c = '_'

/-- The character class `[\w\-]` used for GitHub owner/repo names. -/
def isRepoChar (c : Char) : Bool :=
  isWordChar c || c = '-'

/-- The DOI suffix character class `[-._;()/:A-Za-z0-9]`. -/
def isDoiSuffixChar (c : Char) : Bool :=
  c.isAlpha || c.isDigit || c = '-' || c = '.' || c = '_' || c = ';' ||
    c = '(' || c = ')' || c = '/' || c = ':'

/-- Match a literal piece of a regex at the current position: if `p` is a
prefix of `l`, return the remainder, else fail. -/
def afterLit (p : String) (l : List Char) : Option (List Char) :=
  if p.data.isPrefixOf l then some (l.drop p.data.length) else none

/-! ### URL Classifier (cite.py lines 16-40) -/

/-- Tail of `https?://doi\.org/`: the two scheme alternatives are
disjoint on their fourth character, so greedy `s?` is deterministic. -/
def schemeDoiRest (l : List Char) : Option (List Char) :=
  match afterLit "https://doi.org/" l with
  | some r => some r
  | none => afterLit "http://doi.org/" l

/-- `10\.\d{4,9}/[-._;()/:A-Za-z0-9]+` matched at the head of `r` (a
prefix match, as `re.match` performs).  Greedy `\d{4,9}` followed by the
literal `/` accepts exactly a maximal digit run of length 4 to 9 followed
by `/` (backtracking into the run can never expose a `/`). -/
def doiPathOk (r : List Char) : Bool :=
  match afterLit "10." r with
  | none => false
  | some rest =>
    if 4 ≤ (rest.takeWhile Char.isDigit).length ∧ (rest.takeWhile Char.isDigit).length ≤ 9 then
      match rest.dropWhile Char.isDigit with
      | '/' :: c :: _ => isDoiSuffixChar c
      | _ => false
    else false

/-- `is_doi_url` (cite.py lines 25-31): `re.match` of
`https?://doi\.org/10\.\d{4,9}/[-._;()/:A-Za-z0-9]+`, anchored at the
start of the string, trailing characters tolerated. -/
def is_doi_url (s : String) : Bool :=
  match schemeDoiRest s.data with
  | some r => doiPathOk r
  | none => false

/-- A match of `https?://github\.com/([\w\-]+)/([\w\-]+)`: which scheme
alternative matched, then the owner and repository-name captures. -/
structure GhMatch where
  https : Bool
  owner : List Char
  repo : List Char
deriving DecidableEq, Repr

/-- `[\w\-]+/[\w\-]+` at the head of `r`: a maximal nonempty run, a
literal `/`, then a maximal nonempty run ( `/` is not in the class, so
greedy matching takes exactly the maximal runs). -/
def ownerName (r : List Char) : Option (List Char × List Char) :=
  match r.dropWhile isRepoChar with
  | '/' :: r2 =>
    if (r.takeWhile isRepoChar).isEmpty || (r2.takeWhile isRepoChar).isEmpty then none
    else some (r.takeWhile isRepoChar, r2.takeWhile isRepoChar)
  | _ => none

/-- `https?://github\.com/[\w\-]+/[\w\-]+` matched at the current
position.  If `https://github.com/` is a prefix then the `http://...`
alternative cannot also apply, so no backtracking is lost. -/
def matchGithubAt (l : List Char) : Option GhMatch :=
  match afterLit "https://github.com/" l with
  | some r => (ownerName r).map (fun p => ⟨true, p.1, p.2⟩)
  | none =>
    match afterLit "http://github.com/" l with
    | some r => (ownerName r).map (fun p => ⟨false, p.1, p.2⟩)
    | none => none

/-- `is_github_repo` (cite.py lines 34-40): `re.match` of
`https?://github\.com/[\w\-]+/[\w\-]+`, a prefix match. -/
def is_github_repo (s : String) : Bool :=
  (matchGithubAt s.data).isSome

/-! ### `is_url` (cite.py lines 16-22)

`urlparse` is translated from CPython 3.10's `urllib.parse.urlsplit`
restricted to the two fields the code reads (`scheme`, `netloc`):
removal of the unsafe bytes tab/CR/LF, leading C0-control/space strip,
scheme split at the first `:`, netloc up to the first `/?#` after `//`,
and the "Invalid IPv6 URL" `ValueError` on an unpaired bracket.  (The
stricter bracketed-host validation CPython added in 3.11 is not
modelled; no theorem below touches a bracketed host.) -/

/-- WHATWG C0 control or space, stripped from the front of a URL. -/
def isC0OrSpace (c : Char) : Bool :=
  c.toNat ≤ 32

/-- `_UNSAFE_URL_BYTES_TO_REMOVE`: tab, carriage return, newline. -/
def isUnsafeUrlByte (c : Char) : Bool :=
  c = '\t' || c = '\r' || c = '\n'

/-- CPython `scheme_chars`: letters, digits, `+`, `-`, `.`. -/
def isSchemeChar (c : Char) : Bool :=
  c.isAlpha || c.isDigit || c = '+' || c = '-' || c = '.'

/-- Scheme/netloc part of CPython `urlsplit` on a `str` argument. -/
def urlsplitSchemeNetloc (url : String) : Except PyExc (List Char × List Char) :=
  let u := ((url.data.dropWhile isC0OrSpace).filter (fun c => !isUnsafeUrlByte c))
  let pre := u.takeWhile (fun c => c ≠ ':')
  let schemeRest : List Char × List Char :=
    match u.dropWhile (fun c => c ≠ ':') with
    | ':' :: post =>
      match pre with
      | c0 :: cs =>
        if c0.isAlpha ∧ cs.all isSchemeChar then ((c0 :: cs).map Char.toLower, post)
        else ([], u)
      | [] => ([], u)
    | _ => ([], u)
  match schemeRest.2 with
  | '/' :: '/' :: r =>
    let netloc := r.takeWhile (fun c => c ≠ '/' ∧ c ≠ '?' ∧ c ≠ '#')
    if (netloc.contains '[' && !netloc.contains ']') ||
        (netloc.contains ']' && !netloc.contains '[') then
      .error .valueError
    else .ok (schemeRest.1, netloc)
  | _ => .ok (schemeRest.1, [])

/-- `is_url` on a `str` argument: `all([result.scheme, result.netloc])`
with `ValueError` caught and turned into `False`; `urlsplit` raises no
other exception on a `str`. -/
def is_url (s : String) : Bool :=
  match urlsplitSchemeNetloc s with
  | .ok (scheme, netloc) => !scheme.isEmpty && !netloc.isEmpty
  | .error _ => false

/-- The Python values `is_url` is exercised on: strings and the
non-string inputs appearing in the repository's own tests. -/
inductive PyVal where
  | str (s : String)
  | int (n : Int)
  | pynone
deriving DecidableEq, Repr

/-- `is_url` on an arbitrary Python value.  For a non-`str` argument,
CPython's `urlparse` runs `_coerce_args`/`_decode_args`, which maps a
falsy argument (`None`, `0`) to `''` and calls `.decode` on a truthy
one — an `AttributeError` for an `int`, caught by nothing (`is_url`
catches only `ValueError`). -/
def is_url_py : PyVal → Except PyExc Bool
  | .str s => .ok (is_url s)
  | .pynone => .ok (is_url "")
  | .int n => if n = 0 then .ok (is_url "") else .error .attributeError

/-! ### Registry Prober (cite.py lines 209-260)

`search_for_doi_or_github` scans a page body with
`doi_re = (https?://)?(doi\.org/)?(10\.\d{4,9}/[-._;()/:A-Za-z0-9]+[0-9])`
and returns `"https://doi.org/" + group(3)`.  The two optional prefix
groups contain no `1`, so no occurrence of the mandatory group-3 core can
start inside them; `re.search` therefore always captures the core at its
leftmost occurrence, which is what `searchDoiCore` computes. -/

/-- Largest index of a digit in `cs`, if any. -/
def lastDigitPos : List Char → Option Nat
  | [] => none
  | c :: rest =>
    match lastDigitPos rest with
    | some j => some (j + 1)
    | none => if c.isDigit then some 0 else none

/-- The core `10\.\d{4,9}/[-._;()/:A-Za-z0-9]+[0-9]` matched at the
current position.  For the trailing `X+[0-9]` (digits are in `X`): greedy
matching takes the maximal `X`-run `cs` and backtracks until the last
consumed character is a digit at index `j ≥ 1`, consuming `cs.take (j+1)`
for the largest such `j`; it fails when no digit occurs at index ≥ 1. -/
def matchDoiCoreAt (l : List Char) : Option (List Char) :=
  match afterLit "10." l with
  | none => none
  | some rest =>
    if 4 ≤ (rest.takeWhile Char.isDigit).length ∧ (rest.takeWhile Char.isDigit).length ≤ 9 then
      match rest.dropWhile Char.isDigit with
      | '/' :: r3 =>
        match lastDigitPos (r3.takeWhile isDoiSuffixChar) with
        | some j =>
          if 1 ≤ j then
            some ('1' :: '0' :: '.' ::
              (rest.takeWhile Char.isDigit ++ '/' :: (r3.takeWhile isDoiSuffixChar).take (j + 1)))
          else none
        | none => none
      | _ => none
    else none

/-- `re.search` for the DOI core: leftmost position with a match. -/
def searchDoiCore : List Char → Option (List Char)
  | [] => none
  | c :: rest =>
    match matchDoiCoreAt (c :: rest) with
    | some core => some core
    | none => searchDoiCore rest

/-- `re.search` of `(https?://github\.com/[\w\-]+/[\w\-]+)`: leftmost
position with a match. -/
def searchGithub : List Char → Option GhMatch
  | [] => none
  | c :: rest =>
    match matchGithubAt (c :: rest) with
    | some m => some m
    | none => searchGithub rest

/-- The text of group 1 of the GitHub pattern: everything the match
consumed. -/
def ghRender (m : GhMatch) : String :=
  (if m.https then "https://github.com/" else "http://github.com/") ++
    String.mk m.owner ++ "/" ++ String.mk m.repo

/-- `search_for_doi_or_github` (cite.py lines 209-231) applied to an
already-fetched page body: prefer the DOI pattern, normalising it to
`"https://doi.org/" + group(3)`; otherwise return a GitHub repository
URL match; otherwise `None`. -/
def search_for_doi_or_github (data : String) : Option String :=
  match searchDoiCore data.data with
  | some core => some ("https://doi.org/" ++ String.mk core)
  | none =>
    match searchGithub data.data with
    | some m => some (ghRender m)
    | none => none

/-- Result of `urlopen` on a probe URL: a decoded body, or any raised
exception (swallowed by the bare `except:` in `search_repositories`). -/
inductive FetchResult where
  | ok (body : String)
  | exc
deriving DecidableEq, Repr

/-- `search_repositories` (cite.py lines 234-260): three `try` blocks, in
source order; a raising fetch falls through to the next block, a
successful fetch whose scan returns `None` also falls through (the
`if url := ...` guard is falsy); the function returns the first truthy
scan result, else `None`. -/
def search_repositories (fetch : String → FetchResult) (dependency : String) :
    Option String :=
  match (match fetch ("https://pypi.org/pypi/" ++ dependency ++ "/json") with
         | .ok body => search_for_doi_or_github body
         | .exc => none) with
  | some url => some url
  | none =>
    match (match fetch ("https://bioconda.github.io/recipes/" ++ dependency ++ "/README.html") with
           | .ok body => search_for_doi_or_github body
           | .exc => none) with
    | some url => some url
    | none =>
      match (match fetch ("https://anaconda.org/conda-forge/" ++ dependency) with
             | .ok body => search_for_doi_or_github body
             | .exc => none) with
      | some url => some url
      | none => none

/-! ### Spec-side model of the prober (spec §4.3, claim C4) -/

/-- First non-`none` entry of a list of options. -/
def firstSome {α : Type} : List (Option α) → Option α
  | [] => none
  | some a :: _ => some a
  | none :: rest => firstSome rest

/-- The three probe URLs, in the spec's fixed order: package-index
metadata endpoint, bioconda recipe page, conda-forge package page. -/
def probeUrls (name : String) : List String :=
  ["https://pypi.org/pypi/" ++ name ++ "/json",
   "https://bioconda.github.io/recipes/" ++ name ++ "/README.html",
   "https://anaconda.org/conda-forge/" ++ name]

/-- Spec-side scan of one fetched body: a DOI match is preferred; a
GitHub repository URL match is used only if no DOI matches. -/
def specScanBody (body : String) : Option String :=
  match searchDoiCore body.data with
  | some core => some ("https://doi.org/" ++ String.mk core)
  | none => (searchGithub body.data).map ghRender

/-- Spec-side model of `searchRepositories` (spec §4.3): probe the three
sources in order, treat a failed fetch as silent-absent, let the first
source yielding a match win, and return absent when none does. -/
def specSearchRepositories (fetch : String → FetchResult) (name : String) :
    Option String :=
  firstSome ((probeUrls name).map (fun u =>
    match fetch u with
    | .ok body => specScanBody body
    | .exc => none))

/-! ### Manifest Parser (cite.py lines 271-287) -/

/-- Python `str.strip()` whitespace (ASCII): space, tab, LF, CR,
vertical tab, form feed. -/
def isPySpace (c : Char) : Bool :=
  c = ' ' || c = '\t' || c = '\n' || c = '\r' || c = '\x0b' || c = '\x0c'

/-- Python `line.strip()`. -/
def stripPy (s : String) : String :=
  String.mk (((s.data.dropWhile isPySpace).reverse.dropWhile isPySpace).reverse)

/-- Character class `[\w\-\_]` of the dependency-item regex (equal to
`[\w\-]`, since `\w` already contains `_`). -/
def isItemChar (c : Char) : Bool :=
  isWordChar c || c = '-'

/-- The pattern `- ([\w][\w\-\_]+)` matched at the current position:
literal `-` and space, then a word character, then a maximal nonempty
run of item characters; the capture is the word character plus the run.
Note `+`, not `*`: the captured name needs at least two characters. -/
def depItemMatchAt : List Char → Option (List Char)
  | '-' :: ' ' :: c :: rest =>
    if isWordChar c then
      if (rest.takeWhile isItemChar).isEmpty then none
      else some (c :: rest.takeWhile isItemChar)
    else none
  | _ => none

/-- `dependency_regex.search(line)`: leftmost match of the pattern. -/
def depItemSearch : List Char → Option (List Char)
  | [] => none
  | c :: rest =>
    match depItemMatchAt (c :: rest) with
    | some name => some name
    | none => depItemSearch rest

/-- The loop body of `extract_dependencies_from_yaml` (cite.py lines
275-287) over the file's lines: skip blank lines and lines whose
stripped form starts with `#`; a stripped line equal to `dependencies:`
turns the region flag on; inside the region, `hit = regex.search(line)`
followed by `hit.group(1)` appends the capture — and raises
`AttributeError` (`None.group`) when the regex does not match. -/
def yamlLoop : Bool → List String → List String → Except PyExc (List String)
  | _, acc, [] => .ok acc
  | inDeps, acc, line :: rest =>
    let stripped := stripPy line
    if stripped = "" ∨ stripped.data.head? = some '#' then
      yamlLoop inDeps acc rest
    else if stripped = "dependencies:" then
      yamlLoop true acc rest
    else if inDeps then
      match depItemSearch line.data with
      | some name => yamlLoop inDeps (acc ++ [String.mk name]) rest
      | none => .error .attributeError
    else
      yamlLoop inDeps acc rest

/-- `extract_dependencies_from_yaml` (cite.py lines 271-287), with the
file contents passed as its list of lines. -/
def extract_dependencies_from_yaml (lines : List String) : Except PyExc (List String) :=
  yamlLoop false [] lines

/-! ### Citation Builder (cite.py lines 147-188)

`cite_github_repo` is embedded with its two successful network fetches
abstracted into arguments: `authors` is the list returned by
`get_repo_authors`, `updated_at` the repository metadata's `updated_at`
string, and `today` the value of `datetime.now().strftime("%Y-%m-%d")`. -/

/-- `cite_github_repo(repo_url, ...)`: extract `owner/name` and `name`
with `re.search(r'https?://github\.com/([\w\-]+/([\w\-]+))', repo_url)`
(an absent match makes `.group` raise `AttributeError`), take
`pub_year = repo_data["updated_at"][:4]`, and render the f-string of
cite.py lines 182-188 byte for byte (including the trailing spaces after
the key and the title field). -/
def cite_github_repo (repo_url : String) (authors : List String)
    (updated_at : String) (today : String) : Except PyExc String :=
  match searchGithub repo_url.data with
  | none => .error .attributeError
  | some m =>
    let repo_name := String.mk m.repo
    let pub_year := updated_at.take 4
    .ok ("@misc\x7b" ++ String.mk (m.repo.map Char.toLower) ++ ", \n    title = \x7b" ++ repo_name ++
      "\x7d, \n    author = \x7b" ++ String.intercalate " and " authors ++
      "\x7d,\n    url = \x7b" ++ repo_url ++
      "\x7d,\n    date = \x7b" ++ pub_year ++
      "\x7d,\n    urldate = \x7b" ++ today ++ "\x7d\n\x7d")

/-- The BibTeX shape the spec prescribes for a repository citation
(spec §4.5/§6): an `@misc` record whose key, title, author, url, date
and urldate fields appear in that order, written with explicit field
arguments so claim C8 can name each one. -/
def bibtexRender (key title author url date urldate : String) : String :=
  "@misc\x7b" ++ key ++ ", \n    title = \x7b" ++ title ++
    "\x7d, \n    author = \x7b" ++ author ++
    "\x7d,\n    url = \x7b" ++ url ++
    "\x7d,\n    date = \x7b" ++ date ++
    "\x7d,\n    urldate = \x7b" ++ urldate ++ "\x7d\n\x7d"

/-! ### Pipeline Orchestrator, per-dependency loop (__main__.py lines 59-74)

The `for dep in deps` loop of the single-file branch.  Per dependency the
environment supplies the `search_repositories` result (that function
never raises) and the outcome of `cite_github_repo`.  The DOI dispatch
calls `cite.get_doi_bibtex(cite)` — the *module object*, not `link` —
so `urllib.request.Request` runs `unwrap(str(module))` and `_parse`
raises `ValueError("unknown url type: ...")` unconditionally.  The
`except HTTPError` clause catches only `HTTPError`; any other exception
escapes the loop and aborts the whole run. -/

/-- Outcome of the per-dependency loop: `done outputs warns` when every
dependency was processed (`outputs` the printed citations, `warns` the
count of stderr diagnostics), or `aborted` with the escaping exception
and the dependencies never processed. -/
inductive MainLoopResult where
  | done (outputs : List String) (warns : Nat)
  | aborted (outputs : List String) (warns : Nat) (exc : PyExc) (unprocessed : List String)
deriving DecidableEq, Repr

/-- The single-file branch's dependency loop (__main__.py lines 61-74). -/
def mainFileLoop (search : String → Option String)
    (citeRepo : String → Except PyExc String) :
    List String → List String → Nat → MainLoopResult
  | [], outs, warns => .done outs warns
  | dep :: rest, outs, warns =>
    match search dep with
    | none => mainFileLoop search citeRepo rest outs (warns + 1)
    | some link =>
      if is_doi_url link then
        -- print(cite.get_doi_bibtex(cite)) : ValueError, not an HTTPError, uncaught
        .aborted outs warns .valueError rest
      else if is_github_repo link then
        match citeRepo link with
        | .ok bib => mainFileLoop search citeRepo rest (outs ++ [bib]) warns
        | .error (.httpError _) => mainFileLoop search citeRepo rest outs (warns + 1)
        | .error e => .aborted outs warns e rest
      else
        mainFileLoop search citeRepo rest outs (warns + 1)

/-! ### Spec-side model of the environment-manifest format (spec §4.2, claim C6) -/

/-- A line appearing after the `dependencies:` marker, as the spec
describes the format: either a skippable line (blank or comment) or a
list item `- <name>` preceded by indentation. -/
inductive YamlBodyLine where
  | skip (line : String)
  | item (indent : Nat) (name : String)
deriving DecidableEq, Repr

/-- The concrete text of a body line. -/
def renderBodyLine : YamlBodyLine → String
  | .skip l => l
  | .item ind name => String.mk (List.replicate ind ' ') ++ "- " ++ name

/-- The dependency name a body line contributes, if any. -/
def bodyNameOf : YamlBodyLine → Option String
  | .skip _ => none
  | .item _ name => some name

/-- A skippable line: blank after stripping, or a `#` comment. -/
def skipOkB (l : String) : Bool :=
  stripPy l = "" || (stripPy l).data.head? = some '#'

/-- A dependency name the item regex accepts: a word character followed
by one or more word/hyphen/underscore characters. -/
def validDepName (name : String) : Bool :=
  match name.data with
  | c :: d :: ds => isWordChar c && (d :: ds).all isItemChar
  | _ => false

/-- Well-formedness of one body line. -/
def bodyOkB : YamlBodyLine → Bool
  | .skip l => skipOkB l
  | .item _ name => validDepName name

/-- A line that hard-fails the parse inside the `dependencies:` region:
neither blank nor a comment, not the marker itself, and with no match of
the item pattern anywhere in it (so `hit.group(1)` raises). -/
def badRegionLine (l : String) : Bool :=
  decide (¬(stripPy l = "" ∨ (stripPy l).data.head? = some '#')) &&
  decide (stripPy l ≠ "dependencies:") && (depItemSearch l.data).isNone


/-! ### Helper lemmas -/

theorem takeWhile_all {α : Type} (p : α → Bool) (l : List α)
    (h : ∀ x ∈ l, p x = true) : l.takeWhile p = l := by
  induction l with
  | nil => rfl
  | cons a as ih =>
    rw [List.takeWhile_cons, h a (by simp)]
    simp [ih (fun x hx => h x (by simp [hx]))]

theorem takeWhile_append_stop {α : Type} (p : α → Bool) (xs : List α) (y : α)
    (ys : List α) (hxs : ∀ x ∈ xs, p x = true) (hy : p y = false) :
    (xs ++ y :: ys).takeWhile p = xs := by
  induction xs with
  | nil => simp [List.takeWhile_cons, hy]
  | cons a as ih =>
    rw [List.cons_append, List.takeWhile_cons, hxs a (by simp)]
    simp [ih (fun x hx => hxs x (by simp [hx]))]

theorem dropWhile_append_stop {α : Type} (p : α → Bool) (xs : List α) (y : α)
    (ys : List α) (hxs : ∀ x ∈ xs, p x = true) (hy : p y = false) :
    (xs ++ y :: ys).dropWhile p = y :: ys := by
  induction xs with
  | nil => simp [List.dropWhile_cons, hy]
  | cons a as ih =>
    rw [List.cons_append, List.dropWhile_cons]
    simp [hxs a (by simp), ih (fun x hx => hxs x (by simp [hx]))]

theorem isPrefixOf_append_self (p r : List Char) : p.isPrefixOf (p ++ r) = true := by
  induction p with
  | nil => simp
  | cons c cs ih => simp [List.isPrefixOf, ih]

theorem isPrefixOf_eq_append (p l : List Char) (h : p.isPrefixOf l = true) :
    l = p ++ l.drop p.length := by
  induction p generalizing l with
  | nil => simp
  | cons c cs ih =>
    cases l with
    | nil => simp [List.isPrefixOf] at h
    | cons b bs =>
      simp only [List.isPrefixOf, Bool.and_eq_true, beq_iff_eq] at h
      obtain ⟨rfl, h2⟩ := h
      simpa using ih bs h2

theorem afterLit_append (p : String) (r : List Char) :
    afterLit p (p.data ++ r) = some r := by
  simp [afterLit, isPrefixOf_append_self, List.drop_left]

theorem afterLit_eq_some (p : String) (l r : List Char)
    (h : afterLit p l = some r) : l = p.data ++ r := by
  unfold afterLit at h
  split at h
  · rename_i hp
    injection h with h
    subst h
    exact isPrefixOf_eq_append _ _ hp
  · exact absurd h (by simp)

theorem lastDigitPos_lt (cs : List Char) (j : Nat)
    (h : lastDigitPos cs = some j) : j < cs.length := by
  induction cs generalizing j with
  | nil => simp [lastDigitPos] at h
  | cons c rest ih =>
    cases hr : lastDigitPos rest with
    | some j0 =>
      simp only [lastDigitPos, hr, Option.some.injEq] at h
      have := ih j0 hr
      simp only [List.length_cons]
      omega
    | none =>
      by_cases hd : c.isDigit = true
      · simp only [lastDigitPos, hr, hd, if_true, Option.some.injEq] at h
        simp only [List.length_cons]
        omega
      · simp [lastDigitPos, hr, hd] at h

theorem doiPathOk_build (ds : List Char) (c0 : Char) (tks : List Char)
    (hds : ∀ x ∈ ds, Char.isDigit x = true) (h4 : 4 ≤ ds.length) (h9 : ds.length ≤ 9)
    (hc0 : isDoiSuffixChar c0 = true) :
    doiPathOk ('1' :: '0' :: '.' :: (ds ++ '/' :: c0 :: tks)) = true := by
  have h1 : afterLit "10." ('1' :: '0' :: '.' :: (ds ++ '/' :: c0 :: tks))
      = some (ds ++ '/' :: c0 :: tks) := afterLit_append "10." _
  simp only [doiPathOk, h1,
    takeWhile_append_stop Char.isDigit ds '/' (c0 :: tks) hds (by decide),
    dropWhile_append_stop Char.isDigit ds '/' (c0 :: tks) hds (by decide)]
  simp [h4, h9, hc0]

theorem is_doi_url_core (core : List Char) (h : doiPathOk core = true) :
    is_doi_url ("https://doi.org/" ++ String.mk core) = true := by
  have h1 : afterLit "https://doi.org/" ("https://doi.org/".data ++ core) = some core :=
    afterLit_append _ _
  have hd : ("https://doi.org/" ++ String.mk core).data = "https://doi.org/".data ++ core := rfl
  simp only [is_doi_url, schemeDoiRest, hd, h1, h]

theorem matchDoiCoreAt_sound (l core : List Char)
    (h : matchDoiCoreAt l = some core) :
    is_doi_url ("https://doi.org/" ++ String.mk core) = true := by
  unfold matchDoiCoreAt at h
  split at h
  · exact Option.noConfusion h
  · rename_i rest ha
    split at h
    · rename_i h49
      split at h
      · rename_i r3 hdrop
        split at h
        · rename_i j hldp
          split at h
          · rename_i hj
            simp only [Option.some.injEq] at h
            subst h
            have hlt := lastDigitPos_lt _ _ hldp
            have hds : ∀ x ∈ rest.takeWhile Char.isDigit, Char.isDigit x = true :=
              fun x hx => List.mem_takeWhile_imp hx
            cases hcs : r3.takeWhile isDoiSuffixChar with
            | nil => rw [hcs] at hlt; simp at hlt
            | cons c0 cs' =>
              have hc0 : isDoiSuffixChar c0 = true := by
                have hmem : c0 ∈ r3.takeWhile isDoiSuffixChar := by rw [hcs]; simp
                exact List.mem_takeWhile_imp hmem
              rw [show List.take (j + 1) (c0 :: cs') = c0 :: List.take j cs' from rfl]
              exact is_doi_url_core _ (doiPathOk_build _ c0 _ hds h49.1 h49.2 hc0)
          · exact Option.noConfusion h
        · exact Option.noConfusion h
      · exact Option.noConfusion h
    · exact Option.noConfusion h

theorem ownerName_build (o n : List Char) (ho : ∀ x ∈ o, isRepoChar x = true)
    (hn : ∀ x ∈ n, isRepoChar x = true) (ho0 : o ≠ []) (hn0 : n ≠ []) :
    ownerName (o ++ '/' :: n) = some (o, n) := by
  simp only [ownerName,
    dropWhile_append_stop isRepoChar o '/' n ho (by decide),
    takeWhile_append_stop isRepoChar o '/' n ho (by decide),
    takeWhile_all isRepoChar n hn]
  simp [ho0, hn0]

theorem ownerName_sound (r o n : List Char) (h : ownerName r = some (o, n)) :
    (∀ x ∈ o, isRepoChar x = true) ∧ (∀ x ∈ n, isRepoChar x = true) ∧ o ≠ [] ∧ n ≠ [] := by
  unfold ownerName at h
  split at h
  · rename_i r2 hdrop
    split at h
    · exact Option.noConfusion h
    · rename_i hcond
      simp only [Option.some.injEq, Prod.mk.injEq] at h
      obtain ⟨rfl, rfl⟩ := h
      simp only [Bool.or_eq_true, not_or, List.isEmpty_iff] at hcond
      push_neg at hcond
      exact ⟨fun x hx => List.mem_takeWhile_imp hx,
        fun x hx => List.mem_takeWhile_imp hx, hcond.1, hcond.2⟩
  · exact Option.noConfusion h

theorem is_github_repo_build (sch : Bool) (o n : List Char)
    (ho : ∀ x ∈ o, isRepoChar x = true) (hn : ∀ x ∈ n, isRepoChar x = true)
    (ho0 : o ≠ []) (hn0 : n ≠ []) :
    is_github_repo (ghRender ⟨sch, o, n⟩) = true := by
  cases sch with
  | true =>
    have hd : (ghRender ⟨true, o, n⟩).data = "https://github.com/".data ++ (o ++ '/' :: n) := by
      show ((("https://github.com/".data ++ o) ++ "/".data) ++ n) = _
      simp
    unfold is_github_repo
    rw [hd]
    simp only [matchGithubAt, afterLit_append "https://github.com/" (o ++ '/' :: n),
      ownerName_build o n ho hn ho0 hn0, Option.map_some', Option.isSome_some]
  | false =>
    have hd : (ghRender ⟨false, o, n⟩).data = "http://github.com/".data ++ (o ++ '/' :: n) := by
      show ((("http://github.com/".data ++ o) ++ "/".data) ++ n) = _
      simp
    have hmiss : afterLit "https://github.com/" ("http://github.com/".data ++ (o ++ '/' :: n)) = none := rfl
    unfold is_github_repo
    rw [hd]
    simp only [matchGithubAt, hmiss, afterLit_append "http://github.com/" (o ++ '/' :: n),
      ownerName_build o n ho hn ho0 hn0, Option.map_some', Option.isSome_some]

theorem matchGithubAt_sound (l : List Char) (m : GhMatch) (h : matchGithubAt l = some m) :
    is_github_repo (ghRender m) = true := by
  unfold matchGithubAt at h
  split at h
  · rename_i r ha
    rw [Option.map_eq_some'] at h
    obtain ⟨⟨o, n⟩, hon, rfl⟩ := h
    obtain ⟨ho, hn, ho0, hn0⟩ := ownerName_sound r o n hon
    exact is_github_repo_build true o n ho hn ho0 hn0
  · split at h
    · rename_i r ha
      rw [Option.map_eq_some'] at h
      obtain ⟨⟨o, n⟩, hon, rfl⟩ := h
      obtain ⟨ho, hn, ho0, hn0⟩ := ownerName_sound r o n hon
      exact is_github_repo_build false o n ho hn ho0 hn0
    · exact Option.noConfusion h

theorem searchDoiCore_sound (l core : List Char) (h : searchDoiCore l = some core) :
    ∃ t, matchDoiCoreAt t = some core := by
  induction l with
  | nil => simp [searchDoiCore] at h
  | cons c rest ih =>
    unfold searchDoiCore at h
    split at h
    · rename_i hm
      exact ⟨c :: rest, by rw [hm, h]⟩
    · exact ih h

theorem searchGithub_sound (l : List Char) (m : GhMatch) (h : searchGithub l = some m) :
    ∃ t, matchGithubAt t = some m := by
  induction l with
  | nil => simp [searchGithub] at h
  | cons c rest ih =>
    unfold searchGithub at h
    split at h
    · rename_i hm
      exact ⟨c :: rest, by rw [hm, h]⟩
    · exact ih h

theorem scan_link_classified (b link : String)
    (h : search_for_doi_or_github b = some link) :
    is_doi_url link = true ∨ is_github_repo link = true := by
  unfold search_for_doi_or_github at h
  split at h
  · rename_i core hcore
    simp only [Option.some.injEq] at h
    subst h
    obtain ⟨t, ht⟩ := searchDoiCore_sound _ _ hcore
    exact Or.inl (matchDoiCoreAt_sound t core ht)
  · split at h
    · rename_i m hm
      simp only [Option.some.injEq] at h
      subst h
      obtain ⟨t, ht⟩ := searchGithub_sound _ _ hm
      exact Or.inr (matchGithubAt_sound t m ht)
    · exact Option.noConfusion h

/-! ### Remote API Client: claims C1, C2, C3 -/

theorem queryGithubApi_raise_immediate (env : Nat → ApiResponse) (code : Nat)
    (headers : List (String × String)) (mr mw : Nat) (hmr : 0 < mr)
    (h : env 0 = .httpError code headers) (hc : ¬(code = 403 ∨ code = 429)) :
    queryGithubApi env mr mw = ⟨.raisedHTTP code, 1, []⟩ := by
  cases mr with
  | zero => omega
  | succ m =>
    unfold queryGithubApi
    simp only [queryLoop, h, hc, if_false]

theorem queryLoop_exhaust (env : Nat → ApiResponse) (mw : Nat) (fuel : Nat) :
    ∀ (nth : Nat) (sleeps : List Nat),
    (∀ k, nth ≤ k → k < nth + fuel → env k = .httpError 403 []) →
    (queryLoop env mw nth fuel sleeps).outcome = .raisedExhausted ∧
    (queryLoop env mw nth fuel sleeps).attempts = nth + fuel := by
  induction fuel with
  | zero => intro nth sleeps _; simp [queryLoop]
  | succ f ih =>
    intro nth sleeps henv
    have h0 : env nth = .httpError 403 [] := henv nth le_rfl (by omega)
    simp only [queryLoop, h0, true_or, if_true]
    rw [if_neg (by simp [hasRetryAfter]), if_neg (by simp [rateLimitRemainingEqZero])]
    have hrec := ih (nth + 1) (sleeps ++ [60 * (nth + 1)])
      (fun k hk1 hk2 => henv k (by omega) (by omega))
    exact ⟨hrec.1, by rw [hrec.2]; omega⟩

/-- Claim C1, counterexample: on a single HTTP 500 response
`_query_github_api` raises the `HTTPError` after exactly one attempt —
it neither retries up to `max_retries` nor ends in an absent outcome. -/
theorem query_api_500_not_retried_not_absent :
    (queryGithubApi (fun _ => .httpError 500 []) 3 60).outcome = .raisedHTTP 500 ∧
    (queryGithubApi (fun _ => .httpError 500 []) 3 60).outcome ≠ .absent ∧
    (queryGithubApi (fun _ => .httpError 500 []) 3 60).attempts = 1 := by
  decide

/-- Claim C1 (corrected): after any HTTP error status other than 403 and
429 (404 and 500 included), `_query_github_api` raises the `HTTPError`
immediately, without retrying; and when all `max_retries` attempts are
consumed by 403/429 responses carrying no usable rate-limit headers, it
raises an exception rather than returning absent. -/
theorem query_api_error_policy :
    (∀ (env : Nat → ApiResponse) (code : Nat) (headers : List (String × String))
        (mr mw : Nat), 0 < mr → env 0 = .httpError code headers →
        ¬(code = 403 ∨ code = 429) →
        queryGithubApi env mr mw = ⟨.raisedHTTP code, 1, []⟩) ∧
    (∀ (env : Nat → ApiResponse) (mr mw : Nat),
        (∀ k, k < mr → env k = .httpError 403 []) →
        (queryGithubApi env mr mw).outcome = .raisedExhausted ∧
        (queryGithubApi env mr mw).attempts = mr) := by
  constructor
  · exact queryGithubApi_raise_immediate
  · intro env mr mw henv
    have := queryLoop_exhaust env mw mr 0 [] (fun k hk1 hk2 => henv k (by omega))
    simpa [queryGithubApi] using this

/-- Witness for C1's theorem at concrete inputs: a constant-500
environment raises after one attempt; a constant-403 environment
exhausts all three attempts and raises. -/
theorem query_api_error_policy_witness :
    queryGithubApi (fun _ => .httpError 500 []) 3 60 = ⟨.raisedHTTP 500, 1, []⟩ ∧
    (queryGithubApi (fun _ => .httpError 403 []) 3 60).outcome = .raisedExhausted :=
  ⟨query_api_error_policy.1 (fun _ => .httpError 500 []) 500 [] 3 60 (by decide) rfl
      (by decide),
   (query_api_error_policy.2 (fun _ => .httpError 403 []) 3 60 (fun k _ => rfl)).1⟩

/-- Claim C2, counterexample: a 404 response makes `_query_github_api`
raise the `HTTPError` (case `_: raise e` of the status match), not
return absent. -/
theorem query_api_404_not_absent :
    (queryGithubApi (fun _ => .httpError 404 []) 3 60).outcome ≠ .absent ∧
    queryGithubApi (fun _ => .httpError 404 []) 3 60 = ⟨.raisedHTTP 404, 1, []⟩ := by
  decide

/-- Claim C2 (corrected): a 404 response makes `_query_github_api` raise
the `HTTPError` immediately, consuming zero retries (a single attempt)
and performing no further attempts and no sleeps. -/
theorem query_api_404_raises_immediately (env : Nat → ApiResponse)
    (headers : List (String × String)) (mr mw : Nat) (hmr : 0 < mr)
    (h404 : env 0 = .httpError 404 headers) :
    queryGithubApi env mr mw = ⟨.raisedHTTP 404, 1, []⟩ :=
  queryGithubApi_raise_immediate env 404 headers mr mw hmr h404 (by decide)

/-- Witness for C2's theorem: a concrete 404 environment. -/
theorem query_api_404_raises_immediately_witness :
    queryGithubApi (fun _ => .httpError 404 [("content-type", "text/html")]) 3 60 =
      ⟨.raisedHTTP 404, 1, []⟩ :=
  query_api_404_raises_immediately
    (fun _ => .httpError 404 [("content-type", "text/html")])
    [("content-type", "text/html")] 3 60 (by decide) rfl

/-- Claim C3: the 403/429 branch that reads a `retry_after` header
(cite.py lines 77-81) neither returns absent past the budget nor sleeps
and retries within it; its first executed statement
`max_wait < e.headers['retry_after']` compares an `int` with a `str` and
raises `TypeError` after a single attempt, with no sleep, for a 429
response whose `retry_after` is `"120"` against `max_wait = 60`. -/
theorem query_api_retry_after_raises_typeerror :
    queryGithubApi (fun _ => .httpError 429 [("retry_after", "120")]) 3 60 =
      ⟨.raisedTypeError, 1, []⟩ ∧
    queryGithubApi (fun _ => .httpError 403 [("retry_after", "30")]) 3 60 =
      ⟨.raisedTypeError, 1, []⟩ := by
  constructor <;> decide

/-! ### Registry Prober: claims C4 and C10 -/

theorem firstSome_cons {α : Type} (o : Option α) (rest : List (Option α)) :
    firstSome (o :: rest) = match o with | some a => some a | none => firstSome rest := by
  cases o <;> rfl

theorem firstSome_nil {α : Type} : firstSome ([] : List (Option α)) = none := rfl

theorem search_for_doi_or_github_eq_spec (b : String) :
    search_for_doi_or_github b = specScanBody b := by
  unfold search_for_doi_or_github specScanBody
  cases searchDoiCore b.data
  · cases searchGithub b.data <;> simp
  · rfl

/-- Claim C4: `search_repositories` probes exactly the three sources in
the fixed order PyPI, bioconda, conda-forge; a failed fetch is
silent-absent and the next source is still probed; a fetched body is
scanned for the DOI pattern first and the GitHub pattern only if no DOI
matches; the first source yielding either match wins, and with no match
anywhere the result is `None` — i.e. the function equals the spec-side
model `specSearchRepositories` on every fetch environment. -/
theorem search_repositories_probe_policy (fetch : String → FetchResult)
    (dependency : String) :
    search_repositories fetch dependency = specSearchRepositories fetch dependency := by
  unfold search_repositories specSearchRepositories probeUrls
  simp only [List.map_cons, List.map_nil, search_for_doi_or_github_eq_spec, firstSome_cons,
    firstSome_nil]
  cases fetch ("https://pypi.org/pypi/" ++ dependency ++ "/json") with
  | ok b1 =>
    dsimp only
    cases specScanBody b1 with
    | some u => rfl
    | none =>
      cases fetch ("https://bioconda.github.io/recipes/" ++ dependency ++ "/README.html") with
      | ok b2 =>
        dsimp only
        cases specScanBody b2 with
        | some u => rfl
        | none =>
          cases fetch ("https://anaconda.org/conda-forge/" ++ dependency) with
          | ok b3 =>
            dsimp only
            cases specScanBody b3 with
            | some u => rfl
            | none => rfl
          | exc => rfl
      | exc =>
        cases fetch ("https://anaconda.org/conda-forge/" ++ dependency) with
        | ok b3 =>
          dsimp only
          cases specScanBody b3 with
          | some u => rfl
          | none => rfl
        | exc => rfl
  | exc =>
    cases fetch ("https://bioconda.github.io/recipes/" ++ dependency ++ "/README.html") with
    | ok b2 =>
      dsimp only
      cases specScanBody b2 with
      | some u => rfl
      | none =>
        cases fetch ("https://anaconda.org/conda-forge/" ++ dependency) with
        | ok b3 =>
          dsimp only
          cases specScanBody b3 with
          | some u => rfl
          | none => rfl
        | exc => rfl
    | exc =>
      cases fetch ("https://anaconda.org/conda-forge/" ++ dependency) with
      | ok b3 =>
        dsimp only
        cases specScanBody b3 with
        | some u => rfl
        | none => rfl
      | exc => rfl

/-- Claim C10: a non-`None` result of `search_repositories` always
satisfies `is_doi_url` or `is_github_repo` — every DOI hit is
normalised to `https://doi.org/10.<digits>/<suffix>` and every
repository hit is the matched GitHub URL itself, so the orchestrator's
dispatch never sees an unclassifiable link. -/
theorem search_result_classified (fetch : String → FetchResult)
    (dependency link : String)
    (h : search_repositories fetch dependency = some link) :
    is_doi_url link = true ∨ is_github_repo link = true := by
  unfold search_repositories at h
  split at h
  · rename_i url heq
    simp only [Option.some.injEq] at h
    subst h
    cases hf : fetch ("https://pypi.org/pypi/" ++ dependency ++ "/json") with
    | ok b => rw [hf] at heq; exact scan_link_classified b _ heq
    | exc => rw [hf] at heq; exact Option.noConfusion heq
  · split at h
    · rename_i url heq
      simp only [Option.some.injEq] at h
      subst h
      cases hf : fetch ("https://bioconda.github.io/recipes/" ++ dependency ++ "/README.html") with
      | ok b => rw [hf] at heq; exact scan_link_classified b _ heq
      | exc => rw [hf] at heq; exact Option.noConfusion heq
    · split at h
      · rename_i url heq
        simp only [Option.some.injEq] at h
        subst h
        cases hf : fetch ("https://anaconda.org/conda-forge/" ++ dependency) with
        | ok b => rw [hf] at heq; exact scan_link_classified b _ heq
        | exc => rw [hf] at heq; exact Option.noConfusion heq
      · exact Option.noConfusion h

/-- Witness for C10's theorem: a PyPI body containing a bare DOI yields
the normalised DOI-resolver link, which `is_doi_url` accepts. -/
theorem search_result_classified_witness :
    is_doi_url "https://doi.org/10.1234/abc9" = true ∨
      is_github_repo "https://doi.org/10.1234/abc9" = true :=
  search_result_classified
    (fun u => if u = "https://pypi.org/pypi/numpy/json" then
        .ok "see doi 10.1234/abc9 here" else .exc)
    "numpy" "https://doi.org/10.1234/abc9" (by decide)

/-! ### Pipeline Orchestrator: claim C5 -/

/-- Claim C5: a failure local to one dependency is not always converted
to a diagnostic.  With two dependencies where probing the first yields a
DOI link, the DOI dispatch calls `get_doi_bibtex(cite)` on the module
object; the resulting `ValueError` is not an `HTTPError`, escapes the
`except` clause, and aborts the loop with the second dependency never
processed. -/
theorem main_loop_aborts_on_doi_dependency :
    mainFileLoop
      (fun d => if d = "alpha" then some "https://doi.org/10.1234/abc9"
                else some "https://github.com/o/r")
      (fun _ => .ok "bib") ["alpha", "beta"] [] 0
      = .aborted [] 0 .valueError ["beta"] ∧
    mainFileLoop
      (fun _ => some "https://github.com/o/r")
      (fun _ => .error .plainException) ["alpha", "beta"] [] 0
      = .aborted [] 0 .plainException ["beta"] := by
  constructor <;> decide

/-! ### Manifest Parser lemmas (claims C6, C7) -/

theorem rstrip_noop (p : Char → Bool) (l : List Char)
    (h : ∀ c rest, l.reverse = c :: rest → p c = false) :
    (l.reverse.dropWhile p).reverse = l := by
  cases hr : l.reverse with
  | nil =>
    have hl : l = [] := by simpa using congrArg List.reverse hr
    simp [hl]
  | cons c rest =>
    rw [List.dropWhile_cons, h c rest hr]
    simp only [Bool.false_eq_true, if_false]
    have := congrArg List.reverse hr
    simpa using this.symm

theorem itemChar_not_space (c : Char) (h : isItemChar c = true) : isPySpace c = false := by
  cases hsp : isPySpace c
  · rfl
  · exfalso
    simp only [isPySpace, Bool.or_eq_true, decide_eq_true_eq] at hsp
    rcases hsp with ((((rfl | rfl) | rfl) | rfl) | rfl) | rfl <;> exact absurd h (by decide)

theorem validDepName_shape (name : String) (h : validDepName name = true) :
    ∃ c d ds, name.data = c :: d :: ds ∧ isWordChar c = true ∧
      (d :: ds).all isItemChar = true := by
  unfold validDepName at h
  split at h
  · rename_i c d ds heq
    simp only [Bool.and_eq_true] at h
    exact ⟨c, d, ds, heq, h.1, h.2⟩
  · exact absurd h (by simp)

theorem renderItem_data (ind : Nat) (name : String) :
    (String.mk (List.replicate ind ' ') ++ "- " ++ name).data
      = List.replicate ind ' ' ++ ('-' :: ' ' :: name.data) := by
  show (List.replicate ind ' ' ++ "- ".data) ++ name.data = _
  simp

theorem stripPy_item (ind : Nat) (name : String) (hv : validDepName name = true) :
    stripPy (String.mk (List.replicate ind ' ') ++ "- " ++ name)
      = String.mk ('-' :: ' ' :: name.data) := by
  obtain ⟨c, d, ds, hnd, hc, hall⟩ := validDepName_shape name hv
  unfold stripPy
  rw [renderItem_data]
  rw [dropWhile_append_stop isPySpace (List.replicate ind ' ') '-' (' ' :: name.data)
    (fun x hx => by rw [List.eq_of_mem_replicate hx]; rfl) (by decide)]
  rw [rstrip_noop]
  intro ch rest hr
  have hlast : ('-' :: ' ' :: name.data).getLast? = some ch := by
    rw [← List.head?_reverse, hr]; rfl
  rw [show ('-' :: ' ' :: name.data) = ['-', ' '] ++ name.data from rfl] at hlast
  rw [List.getLast?_append_of_ne_nil _ (by rw [hnd]; simp)] at hlast
  obtain ⟨hne, hch⟩ := List.mem_getLast?_eq_getLast (by rw [hlast]; rfl :
    ch ∈ name.data.getLast?)
  have hmem : ch ∈ name.data := hch ▸ List.getLast_mem hne
  rw [hnd] at hmem
  rcases List.mem_cons.mp hmem with rfl | hmem2
  · exact itemChar_not_space ch (by simpa [isItemChar] using Or.inl hc)
  · have := (List.all_eq_true.mp hall) ch hmem2
    exact itemChar_not_space ch this

theorem depItemSearch_replicate (k : Nat) (tail : List Char) :
    depItemSearch (List.replicate k ' ' ++ tail) = depItemSearch tail := by
  induction k with
  | zero => simp
  | succ n ih =>
    rw [show List.replicate (n + 1) ' ' ++ tail = ' ' :: (List.replicate n ' ' ++ tail) by simp [List.replicate_succ]]
    rw [depItemSearch]
    rw [show depItemMatchAt (' ' :: (List.replicate n ' ' ++ tail)) = none from rfl]
    exact ih

theorem depItemSearch_item (name : String) (hv : validDepName name = true) :
    depItemSearch ('-' :: ' ' :: name.data) = some name.data := by
  obtain ⟨c, d, ds, hnd, hc, hall⟩ := validDepName_shape name hv
  rw [hnd]
  rw [depItemSearch]
  rw [show depItemMatchAt ('-' :: ' ' :: c :: d :: ds) =
      (if isWordChar c then
        if ((d :: ds).takeWhile isItemChar).isEmpty then none
        else some (c :: (d :: ds).takeWhile isItemChar)
      else none) from rfl]
  rw [takeWhile_all isItemChar (d :: ds) (List.all_eq_true.mp hall)]
  rw [if_pos hc]
  simp

theorem yamlLoop_skip (flag : Bool) (acc : List String) (l : String)
    (rest : List String) (h : skipOkB l = true) :
    yamlLoop flag acc (l :: rest) = yamlLoop flag acc rest := by
  simp only [skipOkB, Bool.or_eq_true, decide_eq_true_eq] at h
  simp only [yamlLoop]
  rw [if_pos h]

theorem yamlLoop_item (acc : List String) (ind : Nat) (name : String)
    (rest : List String) (hv : validDepName name = true) :
    yamlLoop true acc ((String.mk (List.replicate ind ' ') ++ "- " ++ name) :: rest)
      = yamlLoop true (acc ++ [name]) rest := by
  obtain ⟨c, d, ds, hnd, hc, hall⟩ := validDepName_shape name hv
  simp only [yamlLoop]
  rw [stripPy_item ind name hv]
  rw [if_neg (by
    rintro (h1 | h2)
    · have := congrArg String.data h1
      simp at this
    · simp at h2)]
  rw [if_neg (by
    intro h1
    have := congrArg String.data h1
    simp at this)]
  rw [if_pos trivial]
  rw [renderItem_data, depItemSearch_replicate, depItemSearch_item name hv]

theorem yamlLoop_pre (pre : List String) (acc : List String) (rest : List String)
    (h : ∀ l ∈ pre, stripPy l ≠ "dependencies:") :
    yamlLoop false acc (pre ++ rest) = yamlLoop false acc rest := by
  induction pre with
  | nil => rfl
  | cons p ps ih =>
    have hp : stripPy p ≠ "dependencies:" := h p (by simp)
    have hps : ∀ l ∈ ps, stripPy l ≠ "dependencies:" := fun l hl => h l (by simp [hl])
    rw [List.cons_append]
    simp only [yamlLoop]
    by_cases hskip : stripPy p = "" ∨ (stripPy p).data.head? = some '#'
    · rw [if_pos hskip]
      exact ih hps
    · rw [if_neg hskip, if_neg hp]
      simp only [Bool.false_eq_true, if_false]
      exact ih hps

theorem yamlLoop_body (body : List YamlBodyLine) :
    ∀ acc : List String, (∀ b ∈ body, bodyOkB b = true) →
    yamlLoop true acc (body.map renderBodyLine)
      = .ok (acc ++ body.filterMap bodyNameOf) := by
  induction body with
  | nil => intro acc _; simp [yamlLoop]
  | cons b rest ih =>
    intro acc hok
    have hb := hok b (by simp)
    have hrest : ∀ x ∈ rest, bodyOkB x = true := fun x hx => hok x (by simp [hx])
    cases b with
    | skip l =>
      rw [List.map_cons, renderBodyLine, yamlLoop_skip true acc l _ hb]
      rw [ih acc hrest]
      simp [bodyNameOf]
    | item ind name =>
      rw [List.map_cons, renderBodyLine, yamlLoop_item acc ind name _ hb]
      rw [ih (acc ++ [name]) hrest]
      simp [bodyNameOf]

theorem badRegionLine_spec (l : String) (h : badRegionLine l = true) :
    ¬(stripPy l = "" ∨ (stripPy l).data.head? = some '#') ∧
    stripPy l ≠ "dependencies:" ∧ depItemSearch l.data = none := by
  simp only [badRegionLine, Bool.and_eq_true, decide_eq_true_eq,
    Option.isNone_iff_eq_none] at h
  exact ⟨h.1.1, h.1.2, h.2⟩

theorem yamlLoop_region_error (ls : List String) :
    ∀ acc : List String, (∃ b ∈ ls, badRegionLine b = true) →
    yamlLoop true acc ls = .error .attributeError := by
  induction ls with
  | nil => intro acc h; simp at h
  | cons hd t ih =>
    intro acc hex
    obtain ⟨b, hmem, hbad⟩ := hex
    by_cases hskip : stripPy hd = "" ∨ (stripPy hd).data.head? = some '#'
    · have hbt : ∃ b ∈ t, badRegionLine b = true := by
        rcases List.mem_cons.mp hmem with rfl | hm2
        · exact absurd hskip (badRegionLine_spec b hbad).1
        · exact ⟨b, hm2, hbad⟩
      simp only [yamlLoop]
      rw [if_pos hskip]
      exact ih acc hbt
    · by_cases hmark : stripPy hd = "dependencies:"
      · have hbt : ∃ b ∈ t, badRegionLine b = true := by
          rcases List.mem_cons.mp hmem with rfl | hm2
          · exact absurd hmark (badRegionLine_spec b hbad).2.1
          · exact ⟨b, hm2, hbad⟩
        simp only [yamlLoop]
        rw [if_neg hskip, if_pos hmark]
        exact ih acc hbt
      · simp only [yamlLoop]
        rw [if_neg hskip, if_neg hmark, if_pos trivial]
        cases hsearch : depItemSearch hd.data with
        | none => rfl
        | some nm =>
          have hbt : ∃ b ∈ t, badRegionLine b = true := by
            rcases List.mem_cons.mp hmem with rfl | hm2
            · have := (badRegionLine_spec b hbad).2.2
              rw [this] at hsearch
              exact Option.noConfusion hsearch
            · exact ⟨b, hm2, hbad⟩
          exact ih (acc ++ [String.mk nm]) hbt

theorem yamlLoop_marker_then_error (pre : List String) :
    ∀ (flag : Bool) (acc : List String) (m : String) (tail : List String),
    stripPy m = "dependencies:" → (∃ b ∈ tail, badRegionLine b = true) →
    yamlLoop flag acc (pre ++ m :: tail) = .error .attributeError := by
  induction pre with
  | nil =>
    intro flag acc m tail hm hbad
    rw [List.nil_append]
    simp only [yamlLoop]
    rw [hm]
    rw [if_neg (by decide), if_pos rfl]
    exact yamlLoop_region_error tail acc hbad
  | cons p ps ih =>
    intro flag acc m tail hm hbad
    rw [List.cons_append]
    by_cases hskip : stripPy p = "" ∨ (stripPy p).data.head? = some '#'
    · simp only [yamlLoop]
      rw [if_pos hskip]
      exact ih flag acc m tail hm hbad
    · by_cases hmark : stripPy p = "dependencies:"
      · simp only [yamlLoop]
        rw [if_neg hskip, if_pos hmark]
        exact ih true acc m tail hm hbad
      · cases flag with
        | false =>
          simp only [yamlLoop]
          rw [if_neg hskip, if_neg hmark]
          simp only [Bool.false_eq_true, if_false]
          exact ih false acc m tail hm hbad
        | true =>
          simp only [yamlLoop]
          rw [if_neg hskip, if_neg hmark, if_pos trivial]
          cases hsearch : depItemSearch p.data with
          | none => rfl
          | some nm => exact ih true (acc ++ [String.mk nm]) m tail hm hbad

/-- Claim C6, counterexample: after `dependencies:`, the line `  - r`
carries the claim's list-item pattern with the one-character name `r`
(one word character followed by zero more), so the claim predicts the
output `["r"]`; the code's regex `- ([\w][\w\-\_]+)` requires at least
two characters, the search returns `None`, and `hit.group(1)` raises
`AttributeError` instead. -/
theorem yaml_single_char_name_counterexample :
    extract_dependencies_from_yaml ["dependencies:", "  - r"]
      = .error .attributeError ∧
    extract_dependencies_from_yaml ["dependencies:", "  - r"] ≠ .ok ["r"] := by
  refine ⟨rfl, ?_⟩
  intro h
  rw [show extract_dependencies_from_yaml ["dependencies:", "  - r"]
    = .error .attributeError from rfl] at h
  exact Except.noConfusion h

/-- Claim C6 (corrected): after a line stripping to `dependencies:`,
every subsequent line is either skipped (blank or `#` comment, without
ending the list region) or is an indented list item `- <name>` whose
name is one word character followed by one or more word, hyphen or
underscore characters; the captured names are appended in encounter
order, and lines before the marker are ignored. -/
theorem yaml_extract_items (pre : List String) (m : String) (body : List YamlBodyLine)
    (hpre : ∀ l ∈ pre, stripPy l ≠ "dependencies:")
    (hm : stripPy m = "dependencies:")
    (hbody : ∀ b ∈ body, bodyOkB b = true) :
    extract_dependencies_from_yaml (pre ++ m :: body.map renderBodyLine)
      = .ok (body.filterMap bodyNameOf) := by
  unfold extract_dependencies_from_yaml
  rw [yamlLoop_pre pre [] _ hpre]
  simp only [yamlLoop]
  rw [hm]
  rw [if_neg (by decide), if_pos rfl]
  simpa using yamlLoop_body body [] hbody

/-- Witness for C6's theorem: the spec's two-item example with an
interleaved blank line and comment yields `["numpy", "pandas"]`. -/
theorem yaml_extract_items_witness :
    extract_dependencies_from_yaml
      ["name: test", "dependencies:", "", "  # comment", "  - numpy", "  - pandas"]
      = .ok ["numpy", "pandas"] :=
  yaml_extract_items ["name: test"] "dependencies:"
    [.skip "", .skip "  # comment", .item 2 "numpy", .item 2 "pandas"]
    (by decide) (by decide) (by decide)

/-- Claim C7: an environment manifest containing, after the
`dependencies:` marker, a non-blank, non-comment line with no occurrence
of the list-item pattern makes `extract_dependencies_from_yaml` raise
(`AttributeError` from `hit.group(1)` on a failed search) instead of
skipping the line. -/
theorem yaml_region_bad_line_fails (pre : List String) (m : String) (tail : List String)
    (hm : stripPy m = "dependencies:")
    (hbad : ∃ b ∈ tail, badRegionLine b = true) :
    extract_dependencies_from_yaml (pre ++ m :: tail) = .error .attributeError :=
  yamlLoop_marker_then_error pre false [] m tail hm hbad

/-- Witness for C7's theorem: a malformed region line (`bowtie2: 2.4`)
after one good item aborts the parse. -/
theorem yaml_region_bad_line_fails_witness :
    extract_dependencies_from_yaml
      ["name: test", "dependencies:", "  - numpy", "  bowtie2: 2.4"]
      = .error .attributeError :=
  yaml_region_bad_line_fails ["name: test"] "dependencies:"
    ["  - numpy", "  bowtie2: 2.4"] (by decide)
    ⟨"  bowtie2: 2.4", by decide, by decide⟩

/-! ### Citation Builder: claim C8 -/

/-- Claim C8: whenever `cite_github_repo` succeeds, the rendered record
is exactly the `@misc` BibTeX block whose key is the repository name
lowercased, whose fields appear in the order title, author, url, date,
urldate, whose author field joins the author list with the literal
string " and ", and whose date field is the first 4 characters of the
repository's `updated_at` timestamp. -/
theorem cite_github_repo_format (repo_url : String) (authors : List String)
    (updated_at today out : String)
    (h : cite_github_repo repo_url authors updated_at today = .ok out) :
    ∃ m, searchGithub repo_url.data = some m ∧
      out = bibtexRender (String.mk (m.repo.map Char.toLower)) (String.mk m.repo)
        (String.intercalate " and " authors) repo_url (updated_at.take 4) today := by
  unfold cite_github_repo at h
  split at h
  · exact Except.noConfusion h
  · rename_i m hm
    simp only [Except.ok.injEq] at h
    exact ⟨m, hm, h.symm⟩

/-- Witness for C8's theorem at a concrete repository URL, author list,
timestamp and render date. -/
theorem cite_github_repo_format_witness :
    ∃ m, searchGithub ("https://github.com/User/RepoX" : String).data = some m ∧
      ("@misc\x7brepox, \n    title = \x7bRepoX\x7d, \n    author = \x7bAlice Smith and bob\x7d,\n    url = \x7bhttps://github.com/User/RepoX\x7d,\n    date = \x7b2023\x7d,\n    urldate = \x7b2026-10-12\x7d\n\x7d" : String)
        = bibtexRender (String.mk (m.repo.map Char.toLower)) (String.mk m.repo)
          (String.intercalate " and " ["Alice Smith", "bob"])
          "https://github.com/User/RepoX" (("2023-07-14T10:00:00Z" : String).take 4)
          "2026-10-12" :=
  cite_github_repo_format "https://github.com/User/RepoX" ["Alice Smith", "bob"]
    "2023-07-14T10:00:00Z" "2026-10-12" _ (by rfl)

/-! ### URL Classifier: claim C9 -/

/-- Claim C9: the string-level behaviour matches the repository's own
test vectors (well-formed `scheme://authority/...` strings are accepted,
strings without scheme or authority are rejected), but the non-string
branch of the claim fails on the code: `is_url(45)` reaches `45 .decode`
inside `urllib.parse._decode_args` and raises `AttributeError`, which
the `except ValueError` clause does not catch — the repository's own
tests `test_is_url_int` and `test_is_url_float` assert `False` here and
fail. -/
theorem is_url_nonstring_raises :
    is_url_py (.int 45) = .error .attributeError ∧
    is_url_py (.int 45) ≠ .ok false ∧
    is_url_py .pynone = .ok false ∧
    is_url "https://www.google.com" = true ∧
    is_url "https://github.com/magikcarp/snakecite" = true ∧
    is_url "https://doi.org/10.1093/bioinformatics/bts480" = true ∧
    is_url "www.google.com" = false ∧
    is_url "4.5" = false := by
  refine ⟨rfl, ?_, rfl, by decide, by decide, by decide, by decide, by decide⟩
  intro h
  rw [show is_url_py (.int 45) = .error .attributeError from rfl] at h
  exact Except.noConfusion h
